import Mathlib

/-!
Verification of the AQI engine of `app.py` (Real-AQI).

The engine is embedded shallowly over `ℚ`: Python floats become rationals,
the breakpoint tables become lists of `Band` records, and the functions
`calculate_sub_aqi`, `get_aqi` and the inline category selection from the
button handler are translated definition by definition from the source.
Python's `round` (banker's rounding, ties to even) is modelled by `pyRound`.
-/

namespace RealAQI

/-- A breakpoint band `(low_c, high_c, low_i, high_i)` as used in `app.py`. -/
structure Band where
  low_c : ℚ
  high_c : ℚ
  low_i : ℚ
  high_i : ℚ
deriving DecidableEq, Repr

/-- The linear-interpolation formula from line 30 of `app.py`:
`low_i + (high_i - low_i) * (C - low_c) / (high_c - low_c)`. -/
def interp (C : ℚ) (b : Band) : ℚ :=
  b.low_i + (b.high_i - b.low_i) * (C - b.low_c) / (b.high_c - b.low_c)

/-- The `for` loop of `calculate_sub_aqi` (lines 28-31): try each band in
order; on the first band with `low_c <= C <= high_c` return the interpolated
index; if the loop finishes, return `500 if C > breakpoints[-1][1] else 0`
(the last band's upper bound is passed in as `lastHigh`). -/
def subAqiLoop (C : ℚ) (lastHigh : ℚ) : List Band → ℚ
  | [] => if C > lastHigh then 500 else 0
  | b :: rest =>
      if b.low_c ≤ C ∧ C ≤ b.high_c then interp C b else subAqiLoop C lastHigh rest

/-- `calculate_sub_aqi` from `app.py` lines 27-31.  `breakpoints[-1][1]` is
the `high_c` of the last band (on the empty list Python would raise; every
call site passes a 6-element table, so the `getLastD` default is never
reached on real inputs). -/
def calculate_sub_aqi (C : ℚ) (breakpoints : List Band) : ℚ :=
  subAqiLoop C (breakpoints.getLastD ⟨0, 0, 0, 0⟩).high_c breakpoints

/-- PM2.5 breakpoint table (`app.py` lines 39-40). -/
def pm25_bp : List Band :=
  [⟨0, 12, 0, 50⟩, ⟨12.1, 35.4, 51, 100⟩, ⟨35.5, 55.4, 101, 150⟩,
   ⟨55.5, 150.4, 151, 200⟩, ⟨150.5, 250.4, 201, 300⟩, ⟨250.5, 500.4, 301, 500⟩]

/-- PM10 breakpoint table (`app.py` lines 45-46). -/
def pm10_bp : List Band :=
  [⟨0, 54, 0, 50⟩, ⟨55, 154, 51, 100⟩, ⟨155, 254, 101, 150⟩,
   ⟨255, 354, 151, 200⟩, ⟨355, 424, 201, 300⟩, ⟨425, 604, 301, 500⟩]

/-- CO breakpoint table (`app.py` lines 51-52). -/
def co_bp : List Band :=
  [⟨0, 4.4, 0, 50⟩, ⟨4.5, 9.4, 51, 100⟩, ⟨9.5, 12.4, 101, 150⟩,
   ⟨12.5, 15.4, 151, 200⟩, ⟨15.5, 30.4, 201, 300⟩, ⟨30.5, 50.4, 301, 500⟩]

/-- O₃ breakpoint table (`app.py` lines 57-58). -/
def o3_bp : List Band :=
  [⟨0, 54, 0, 50⟩, ⟨55, 70, 51, 100⟩, ⟨71, 85, 101, 150⟩,
   ⟨86, 105, 151, 200⟩, ⟨106, 200, 201, 300⟩, ⟨201, 604, 301, 500⟩]

/-- NO₂ breakpoint table (`app.py` lines 63-64). -/
def no2_bp : List Band :=
  [⟨0, 53, 0, 50⟩, ⟨54, 100, 51, 100⟩, ⟨101, 360, 101, 150⟩,
   ⟨361, 649, 151, 200⟩, ⟨650, 1249, 201, 300⟩, ⟨1250, 2049, 301, 500⟩]

/-- One conditional `aqi_list.append((name, calculate_sub_aqi(c, bp)))`
block of `get_aqi`: an absent pollutant contributes nothing, a present one
contributes its named sub-index. -/
def optEntry (name : String) (bp : List Band) : Option ℚ → List (String × ℚ)
  | none => []
  | some c => [(name, calculate_sub_aqi c bp)]

/-- The `aqi_list` built by `get_aqi` (lines 35-65), in source order
PM2.5, PM10, CO, O₃, NO₂. -/
def aqiList (pm25 pm10 co o3 no2 : Option ℚ) : List (String × ℚ) :=
  optEntry "PM2.5" pm25_bp pm25 ++ optEntry "PM10" pm10_bp pm10 ++
  optEntry "CO" co_bp co ++ optEntry "O₃" o3_bp o3 ++ optEntry "NO₂" no2_bp no2

/-- Python's `max` on a non-empty list (`max([...])`); the `[]` case is an
error in Python and is given the junk value `0` here. -/
def listMax : List ℚ → ℚ
  | [] => 0
  | v :: rest => rest.foldl max v

/-- Python 3's `round`: nearest integer, ties to even (banker's rounding). -/
def pyRound (q : ℚ) : ℤ :=
  if q - ⌊q⌋ < 1/2 then ⌊q⌋
  else if (1 : ℚ)/2 < q - ⌊q⌋ then ⌊q⌋ + 1
  else if ⌊q⌋ % 2 = 0 then ⌊q⌋ else ⌊q⌋ + 1

/-- `get_aqi` (lines 34-73): build `aqi_list`; if it is empty return
`(0, "No data")`; otherwise `overall_aqi = max` of the values,
`main_pollutant = [pol for pol, val in aqi_list if val == overall_aqi][0]`,
and the result is `(round(overall_aqi), main_pollutant)` (the `headD ""`
default is unreachable because the maximum occurs in the list). -/
def get_aqi (pm25 pm10 co o3 no2 : Option ℚ) : ℤ × String :=
  let aqi_list := aqiList pm25 pm10 co o3 no2
  if aqi_list = [] then (0, "No data")
  else
    let overall_aqi := listMax (aqi_list.map Prod.snd)
    let main_pollutant :=
      ((aqi_list.filter (fun p => decide (p.2 = overall_aqi))).map Prod.fst).headD ""
    (pyRound overall_aqi, main_pollutant)

/-- The category/color selection of the button handler (`app.py`
lines 81-98): ascending `<=` checks, final `else` is Hazardous. -/
def category (aqi : ℤ) : String × String :=
  if aqi ≤ 50 then ("Good", "#00e400")
  else if aqi ≤ 100 then ("Moderate", "#ffff00")
  else if aqi ≤ 150 then ("Unhealthy for Sensitive Groups", "#ff7e00")
  else if aqi ≤ 200 then ("Unhealthy", "#ff0000")
  else if aqi ≤ 300 then ("Very Unhealthy", "#8f3f97")
  else ("Hazardous", "#7e0023")

/-! ### Basic lemmas about the interpolation loop -/

/-- If no band of `bps` matches `C`, the loop falls through to the
`500 if C > lastHigh else 0` fallback. -/
lemma subAqiLoop_no_match (C L : ℚ) (bps : List Band)
    (h : ∀ b ∈ bps, ¬(b.low_c ≤ C ∧ C ≤ b.high_c)) :
    subAqiLoop C L bps = if C > L then 500 else 0 := by
  induction bps with
  | nil => rfl
  | cons b rest ih =>
      rw [subAqiLoop, if_neg (h b (List.mem_cons_self b rest))]
      exact ih fun x hx => h x (List.mem_cons_of_mem b hx)

/-- The loop returns the interpolation of the first matching band. -/
lemma subAqiLoop_first_match (C L : ℚ) (bps : List Band) (i : ℕ) (hi : i < bps.length)
    (hmatch : (bps.get ⟨i, hi⟩).low_c ≤ C ∧ C ≤ (bps.get ⟨i, hi⟩).high_c)
    (hfirst : ∀ j (hj : j < bps.length), j < i →
      ¬((bps.get ⟨j, hj⟩).low_c ≤ C ∧ C ≤ (bps.get ⟨j, hj⟩).high_c)) :
    subAqiLoop C L bps = interp C (bps.get ⟨i, hi⟩) := by
  induction bps generalizing i with
  | nil => exact absurd hi (Nat.not_lt_zero i)
  | cons b rest ih =>
      cases i with
      | zero => exact if_pos hmatch
      | succ n =>
          have hb : ¬(b.low_c ≤ C ∧ C ≤ b.high_c) :=
            hfirst 0 (Nat.succ_pos _) (Nat.succ_pos _)
          rw [subAqiLoop, if_neg hb]
          exact ih n (Nat.lt_of_succ_lt_succ hi) hmatch
            (fun j hj hlt => hfirst (j + 1) (Nat.succ_lt_succ hj) (Nat.succ_lt_succ hlt))

/-- The last element of a non-empty list is a member (for `getLastD`). -/
lemma getLastD_mem {α : Type} (l : List α) (d : α) (h : l ≠ []) : l.getLastD d ∈ l := by
  induction l with
  | nil => exact absurd rfl h
  | cons a t ih =>
      cases t with
      | nil => exact List.mem_singleton.mpr rfl
      | cons b u => exact List.mem_cons_of_mem a (ih (by simp))

/-- If every band's upper bound is strictly below `C`, the sub-index is the
sentinel `500`. -/
lemma calculate_sub_aqi_above_all (C : ℚ) (bps : List Band) (hne : bps ≠ [])
    (h : ∀ b ∈ bps, b.high_c < C) : calculate_sub_aqi C bps = 500 := by
  rw [calculate_sub_aqi, subAqiLoop_no_match]
  · exact if_pos (h _ (getLastD_mem bps ⟨0, 0, 0, 0⟩ hne))
  · intro b hb hc
    exact absurd hc.2 (not_le.mpr (h b hb))

/-- A band's interpolated value stays below its upper index when the
concentration stays below the band's upper bound. -/
lemma interp_le_high (C : ℚ) (b : Band) (hcd : b.low_c < b.high_c)
    (hil : b.low_i ≤ b.high_i) (hC : C ≤ b.high_c) : interp C b ≤ b.high_i := by
  have hd : 0 < b.high_c - b.low_c := by linarith
  have h1 : (C - b.low_c) / (b.high_c - b.low_c) ≤ 1 := by
    rw [div_le_one hd]; linarith
  have h2 : (b.high_i - b.low_i) * ((C - b.low_c) / (b.high_c - b.low_c)) ≤
      (b.high_i - b.low_i) * 1 :=
    mul_le_mul_of_nonneg_left h1 (by linarith)
  rw [interp, mul_div_assoc]
  linarith

/-- Interpolation is monotone in the concentration on a well-formed band. -/
lemma interp_mono (C₁ C₂ : ℚ) (b : Band) (hcd : b.low_c < b.high_c)
    (hil : b.low_i ≤ b.high_i) (h12 : C₁ ≤ C₂) : interp C₁ b ≤ interp C₂ b := by
  have hd : 0 < b.high_c - b.low_c := by linarith
  have h1 : (C₁ - b.low_c) / (b.high_c - b.low_c) ≤ (C₂ - b.low_c) / (b.high_c - b.low_c) :=
    div_le_div_of_nonneg_right (by linarith) hd.le
  have h2 : (b.high_i - b.low_i) * ((C₁ - b.low_c) / (b.high_c - b.low_c)) ≤
      (b.high_i - b.low_i) * ((C₂ - b.low_c) / (b.high_c - b.low_c)) :=
    mul_le_mul_of_nonneg_left h1 (by linarith)
  rw [interp, interp, mul_div_assoc, mul_div_assoc]
  linarith

/-- The loop returns the interpolation of the matching band when the table's
bands are strictly separated (no earlier band can then match). -/
lemma subAqiLoop_eval (C L : ℚ) (bps : List Band)
    (hs : bps.Pairwise fun a b => a.high_c < b.low_c) (b : Band) (hb : b ∈ bps)
    (h1 : b.low_c ≤ C) (h2 : C ≤ b.high_c) :
    subAqiLoop C L bps = interp C b := by
  induction bps with
  | nil => cases hb
  | cons a rest ih =>
      rw [List.pairwise_cons] at hs
      rcases List.mem_cons.mp hb with rfl | hmem
      · exact if_pos ⟨h1, h2⟩
      · have ha : a.high_c < b.low_c := hs.1 b hmem
        rw [subAqiLoop, if_neg fun hc => absurd hc.2 (not_le.mpr (lt_of_lt_of_le ha h1))]
        exact ih hs.2 hmem

/-- `calculate_sub_aqi` on a separated table evaluates the band containing `C`. -/
lemma calculate_sub_aqi_eval (C : ℚ) (bps : List Band)
    (hs : bps.Pairwise fun a b => a.high_c < b.low_c) (b : Band) (hb : b ∈ bps)
    (h1 : b.low_c ≤ C) (h2 : C ≤ b.high_c) :
    calculate_sub_aqi C bps = interp C b :=
  subAqiLoop_eval C _ bps hs b hb h1 h2

/-! ### Facts about the five concrete tables -/

lemma pm25_bands_ok : ∀ b ∈ pm25_bp, b.low_c < b.high_c ∧ b.low_i ≤ b.high_i ∧ b.high_i ≤ 500 := by
  intro b hb; fin_cases hb <;> norm_num

lemma pm10_bands_ok : ∀ b ∈ pm10_bp, b.low_c < b.high_c ∧ b.low_i ≤ b.high_i ∧ b.high_i ≤ 500 := by
  intro b hb; fin_cases hb <;> norm_num

lemma co_bands_ok : ∀ b ∈ co_bp, b.low_c < b.high_c ∧ b.low_i ≤ b.high_i ∧ b.high_i ≤ 500 := by
  intro b hb; fin_cases hb <;> norm_num

lemma o3_bands_ok : ∀ b ∈ o3_bp, b.low_c < b.high_c ∧ b.low_i ≤ b.high_i ∧ b.high_i ≤ 500 := by
  intro b hb; fin_cases hb <;> norm_num

lemma no2_bands_ok : ∀ b ∈ no2_bp, b.low_c < b.high_c ∧ b.low_i ≤ b.high_i ∧ b.high_i ≤ 500 := by
  intro b hb; fin_cases hb <;> norm_num

lemma pm25_sorted : pm25_bp.Pairwise fun a b => a.high_c < b.low_c := by
  norm_num [pm25_bp, List.pairwise_cons]

lemma pm10_sorted : pm10_bp.Pairwise fun a b => a.high_c < b.low_c := by
  norm_num [pm10_bp, List.pairwise_cons]

lemma co_sorted : co_bp.Pairwise fun a b => a.high_c < b.low_c := by
  norm_num [co_bp, List.pairwise_cons]

lemma o3_sorted : o3_bp.Pairwise fun a b => a.high_c < b.low_c := by
  norm_num [o3_bp, List.pairwise_cons]

lemma no2_sorted : no2_bp.Pairwise fun a b => a.high_c < b.low_c := by
  norm_num [no2_bp, List.pairwise_cons]

/-- Each of the five tables is strictly separated and well-formed. -/
lemma table_sorted_ok : ∀ bps ∈ [pm25_bp, pm10_bp, co_bp, o3_bp, no2_bp],
    (bps.Pairwise fun a b => a.high_c < b.low_c) ∧
    ∀ b ∈ bps, b.low_c < b.high_c ∧ b.low_i ≤ b.high_i ∧ b.high_i ≤ 500 := by
  intro bps hmem
  simp only [List.mem_cons, List.mem_singleton, List.not_mem_nil, or_false] at hmem
  rcases hmem with rfl | rfl | rfl | rfl | rfl
  exacts [⟨pm25_sorted, pm25_bands_ok⟩, ⟨pm10_sorted, pm10_bands_ok⟩,
    ⟨co_sorted, co_bands_ok⟩, ⟨o3_sorted, o3_bands_ok⟩, ⟨no2_sorted, no2_bands_ok⟩]

/-- `getLastD` of a non-empty list is its element at index `length - 1`. -/
lemma getLastD_eq_get {α : Type} (l : List α) (d : α) (h : 0 < l.length) :
    l.getLastD d = l.get ⟨l.length - 1, by omega⟩ := by
  induction l generalizing d with
  | nil => exact absurd h (by simp)
  | cons a t ih =>
      cases t with
      | nil => rfl
      | cons b u => exact ih a (by simp)

/-- On a separated, well-formed table, any concentration strictly inside the
gap between two consecutive bands matches no band and gets sub-index 0
(it is below the last band's upper bound, so the 0 branch of the fallback
fires). -/
lemma gap_yields_zero (bps : List Band)
    (hs : bps.Pairwise fun a b => a.high_c < b.low_c)
    (hw : ∀ b ∈ bps, b.low_c ≤ b.high_c)
    (k : ℕ) (hk : k + 1 < bps.length) (C : ℚ)
    (h1 : (bps.get ⟨k, Nat.lt_of_succ_lt hk⟩).high_c < C)
    (h2 : C < (bps.get ⟨k + 1, hk⟩).low_c) :
    calculate_sub_aqi C bps = 0 := by
  have hpg : ∀ (i j : Fin bps.length), i < j → (bps.get i).high_c < (bps.get j).low_c :=
    fun i j hij => List.pairwise_iff_get.mp hs i j hij
  have hno : ∀ b ∈ bps, ¬(b.low_c ≤ C ∧ C ≤ b.high_c) := by
    intro b hb hc
    obtain ⟨j, hj⟩ := List.mem_iff_get.mp hb
    rcases Nat.lt_or_ge (j : ℕ) (k + 1) with hjk | hjk
    · have hbC : b.high_c < C := by
        rcases Nat.lt_or_ge (j : ℕ) k with hjk2 | hjk2
        · have hgap := hpg j ⟨k, Nat.lt_of_succ_lt hk⟩ hjk2
          have hwk := hw _ (List.get_mem bps k (Nat.lt_of_succ_lt hk))
          rw [hj] at hgap
          linarith
        · have he : bps.get j = bps.get ⟨k, Nat.lt_of_succ_lt hk⟩ := by
            congr 1
            exact Fin.ext (show (j : ℕ) = k by omega)
          rw [hj] at he
          rw [he]
          exact h1
      exact absurd hc.2 (not_le.mpr hbC)
    · have hCb : C < b.low_c := by
        rcases Nat.lt_or_ge (k + 1) (j : ℕ) with hjk2 | hjk2
        · have hgap := hpg ⟨k + 1, hk⟩ j hjk2
          have hwk1 := hw _ (List.get_mem bps (k + 1) hk)
          rw [hj] at hgap
          linarith
        · have he : bps.get j = bps.get ⟨k + 1, hk⟩ := by
            congr 1
            exact Fin.ext (show (j : ℕ) = k + 1 by omega)
          rw [hj] at he
          rw [he]
          exact h2
      exact absurd hc.1 (not_le.mpr hCb)
  have hle : C ≤ (bps.getLastD ⟨0, 0, 0, 0⟩).high_c := by
    rw [getLastD_eq_get bps ⟨0, 0, 0, 0⟩ (by omega)]
    rcases Nat.lt_or_ge (k + 1) (bps.length - 1) with hlt | hge
    · have hgap := hpg ⟨k + 1, hk⟩ ⟨bps.length - 1, by omega⟩ hlt
      have hwk1 := hw _ (List.get_mem bps (k + 1) hk)
      have hwlast := hw _ (List.get_mem bps (bps.length - 1) (by omega))
      linarith
    · have he : bps.get ⟨bps.length - 1, by omega⟩ = bps.get ⟨k + 1, hk⟩ := by
        congr 1
        exact Fin.ext (show bps.length - 1 = k + 1 by omega)
      rw [he]
      have hwk1 := hw _ (List.get_mem bps (k + 1) hk)
      linarith
  rw [calculate_sub_aqi, subAqiLoop_no_match C _ bps hno, if_neg (not_lt.mpr hle)]

lemma aboveTop_pm25 (C : ℚ) (h : 500.4 < C) : calculate_sub_aqi C pm25_bp = 500 := by
  refine calculate_sub_aqi_above_all C pm25_bp (by simp [pm25_bp]) ?_
  intro b hb; fin_cases hb <;> (dsimp only; linarith)

lemma aboveTop_pm10 (C : ℚ) (h : 604 < C) : calculate_sub_aqi C pm10_bp = 500 := by
  refine calculate_sub_aqi_above_all C pm10_bp (by simp [pm10_bp]) ?_
  intro b hb; fin_cases hb <;> (dsimp only; linarith)

lemma aboveTop_co (C : ℚ) (h : 50.4 < C) : calculate_sub_aqi C co_bp = 500 := by
  refine calculate_sub_aqi_above_all C co_bp (by simp [co_bp]) ?_
  intro b hb; fin_cases hb <;> (dsimp only; linarith)

lemma aboveTop_o3 (C : ℚ) (h : 604 < C) : calculate_sub_aqi C o3_bp = 500 := by
  refine calculate_sub_aqi_above_all C o3_bp (by simp [o3_bp]) ?_
  intro b hb; fin_cases hb <;> (dsimp only; linarith)

lemma aboveTop_no2 (C : ℚ) (h : 2049 < C) : calculate_sub_aqi C no2_bp = 500 := by
  refine calculate_sub_aqi_above_all C no2_bp (by simp [no2_bp]) ?_
  intro b hb; fin_cases hb <;> (dsimp only; linarith)

/-! ### Claims -/

/-- C1: `calculate_sub_aqi` scans the bands in table order; for the first
band `(low_c, high_c, low_i, high_i)` with `low_c ≤ C ≤ high_c` it returns
exactly `low_i + (high_i - low_i) * (C - low_c) / (high_c - low_c)`; when
several bands match, the first match in table order determines the result. -/
theorem claim_C1 (C : ℚ) (bps : List Band) (i : ℕ) (hi : i < bps.length)
    (hmatch : (bps.get ⟨i, hi⟩).low_c ≤ C ∧ C ≤ (bps.get ⟨i, hi⟩).high_c)
    (hfirst : ∀ j (hj : j < bps.length), j < i →
      ¬((bps.get ⟨j, hj⟩).low_c ≤ C ∧ C ≤ (bps.get ⟨j, hj⟩).high_c)) :
    calculate_sub_aqi C bps = (bps.get ⟨i, hi⟩).low_i +
      ((bps.get ⟨i, hi⟩).high_i - (bps.get ⟨i, hi⟩).low_i) *
      (C - (bps.get ⟨i, hi⟩).low_c) / ((bps.get ⟨i, hi⟩).high_c - (bps.get ⟨i, hi⟩).low_c) := by
  rw [calculate_sub_aqi, subAqiLoop_first_match C _ bps i hi hmatch hfirst, interp]

/-- Witness for C1: `C = 25` lies in the second PM2.5 band (index 1) and
misses the first, so the result is the interpolation on that band. -/
theorem claim_C1_witness :
    calculate_sub_aqi 25 pm25_bp = 51 + (100 - 51) * ((25 : ℚ) - 12.1) / (35.4 - 12.1) := by
  have hi : (1 : ℕ) < pm25_bp.length := by norm_num [pm25_bp]
  have hm : (pm25_bp.get ⟨1, hi⟩).low_c ≤ 25 ∧ (25 : ℚ) ≤ (pm25_bp.get ⟨1, hi⟩).high_c := by
    norm_num [pm25_bp]
  have hf : ∀ j (hj : j < pm25_bp.length), j < 1 →
      ¬((pm25_bp.get ⟨j, hj⟩).low_c ≤ 25 ∧ (25 : ℚ) ≤ (pm25_bp.get ⟨j, hj⟩).high_c) := by
    intro j hj hlt
    interval_cases j
    norm_num [pm25_bp]
  rw [claim_C1 25 pm25_bp 1 hi hm hf]
  norm_num [pm25_bp]

/-- C3: each of the five tables has exactly 6 bands, the index ranges are
[0,50], [51,100], [101,150], [151,200], [201,300], [301,500], and the
concentration boundaries equal the values listed in the spec's table. -/
theorem claim_C3 :
    (pm25_bp.length = 6 ∧
     pm25_bp.map (fun b => (b.low_i, b.high_i)) =
       [(0, 50), (51, 100), (101, 150), (151, 200), (201, 300), (301, 500)] ∧
     pm25_bp.map (fun b => (b.low_c, b.high_c)) =
       [(0, 12), (12.1, 35.4), (35.5, 55.4), (55.5, 150.4), (150.5, 250.4), (250.5, 500.4)]) ∧
    (pm10_bp.length = 6 ∧
     pm10_bp.map (fun b => (b.low_i, b.high_i)) =
       [(0, 50), (51, 100), (101, 150), (151, 200), (201, 300), (301, 500)] ∧
     pm10_bp.map (fun b => (b.low_c, b.high_c)) =
       [(0, 54), (55, 154), (155, 254), (255, 354), (355, 424), (425, 604)]) ∧
    (co_bp.length = 6 ∧
     co_bp.map (fun b => (b.low_i, b.high_i)) =
       [(0, 50), (51, 100), (101, 150), (151, 200), (201, 300), (301, 500)] ∧
     co_bp.map (fun b => (b.low_c, b.high_c)) =
       [(0, 4.4), (4.5, 9.4), (9.5, 12.4), (12.5, 15.4), (15.5, 30.4), (30.5, 50.4)]) ∧
    (o3_bp.length = 6 ∧
     o3_bp.map (fun b => (b.low_i, b.high_i)) =
       [(0, 50), (51, 100), (101, 150), (151, 200), (201, 300), (301, 500)] ∧
     o3_bp.map (fun b => (b.low_c, b.high_c)) =
       [(0, 54), (55, 70), (71, 85), (86, 105), (106, 200), (201, 604)]) ∧
    (no2_bp.length = 6 ∧
     no2_bp.map (fun b => (b.low_i, b.high_i)) =
       [(0, 50), (51, 100), (101, 150), (151, 200), (201, 300), (301, 500)] ∧
     no2_bp.map (fun b => (b.low_c, b.high_c)) =
       [(0, 53), (54, 100), (101, 360), (361, 649), (650, 1249), (1250, 2049)]) :=
  ⟨⟨rfl, rfl, rfl⟩, ⟨rfl, rfl, rfl⟩, ⟨rfl, rfl, rfl⟩, ⟨rfl, rfl, rfl⟩, ⟨rfl, rfl, rfl⟩⟩

/-- C5: categorization is a function of the rounded overall index, checked
in ascending order with `≤`: `≤ 50` Good, `≤ 100` Moderate, `≤ 150`
Unhealthy for Sensitive Groups, `≤ 200` Unhealthy, `≤ 300` Very Unhealthy,
beyond 300 unconditionally Hazardous; with the listed boundary values. -/
theorem claim_C5 :
    (∀ i : ℤ, i ≤ 50 → category i = ("Good", "#00e400")) ∧
    (∀ i : ℤ, 50 < i → i ≤ 100 → category i = ("Moderate", "#ffff00")) ∧
    (∀ i : ℤ, 100 < i → i ≤ 150 → category i = ("Unhealthy for Sensitive Groups", "#ff7e00")) ∧
    (∀ i : ℤ, 150 < i → i ≤ 200 → category i = ("Unhealthy", "#ff0000")) ∧
    (∀ i : ℤ, 200 < i → i ≤ 300 → category i = ("Very Unhealthy", "#8f3f97")) ∧
    (∀ i : ℤ, 300 < i → category i = ("Hazardous", "#7e0023")) ∧
    category 50 = ("Good", "#00e400") ∧
    category 51 = ("Moderate", "#ffff00") ∧
    category 100 = ("Moderate", "#ffff00") ∧
    category 101 = ("Unhealthy for Sensitive Groups", "#ff7e00") ∧
    category 300 = ("Very Unhealthy", "#8f3f97") ∧
    category 301 = ("Hazardous", "#7e0023") := by
  refine ⟨?_, ?_, ?_, ?_, ?_, ?_, by decide, by decide, by decide, by decide, by decide, by decide⟩
  · intro i h1
    rw [category, if_pos h1]
  · intro i h1 h2
    rw [category, if_neg (by omega), if_pos h2]
  · intro i h1 h2
    rw [category, if_neg (by omega), if_neg (by omega), if_pos h2]
  · intro i h1 h2
    rw [category, if_neg (by omega), if_neg (by omega), if_neg (by omega), if_pos h2]
  · intro i h1 h2
    rw [category, if_neg (by omega), if_neg (by omega), if_neg (by omega), if_neg (by omega),
      if_pos h2]
  · intro i h1
    rw [category, if_neg (by omega), if_neg (by omega), if_neg (by omega), if_neg (by omega),
      if_neg (by omega)]

/-- Witness for C5: index 75 falls in the Moderate band. -/
theorem claim_C5_witness : category 75 = ("Moderate", "#ffff00") :=
  claim_C5.2.1 75 (by decide) (by decide)

/-- C6: with all five pollutant arguments absent, `get_aqi` returns the
degenerate result `(0, "No data")`. -/
theorem claim_C6 : get_aqi none none none none none = (0, "No data") := rfl

/-- Counterexample to C7: at PM2.5 = 25.0 the code does NOT return
`50 + (100 - 50) * (25.0 - 12.1) / (35.4 - 12.1)` (≈ 77.7): the matching
band is `(12.1, 35.4, 51, 100)`, whose lower index is 51, not 50, so the
code returns 18204/233 ≈ 78.13 while the spec's formula gives 18100/233. -/
theorem claim_C7_counterexample :
    calculate_sub_aqi 25 pm25_bp ≠ 50 + (100 - 50) * ((25 : ℚ) - 12.1) / (35.4 - 12.1) := by
  norm_num [calculate_sub_aqi, pm25_bp, subAqiLoop, interp]

/-- C7 (amended): for PM2.5 = 25.0 the computed sub-index equals
`51 + (100 - 51) * (25.0 - 12.1) / (35.4 - 12.1)` ≈ 78.1 (the band holding
25.0 spans indices 51-100). -/
theorem claim_C7 :
    calculate_sub_aqi 25 pm25_bp = 51 + (100 - 51) * ((25 : ℚ) - 12.1) / (35.4 - 12.1) ∧
    |calculate_sub_aqi 25 pm25_bp - 78.1| < 0.1 := by
  have h : calculate_sub_aqi 25 pm25_bp = 51 + (100 - 51) * ((25 : ℚ) - 12.1) / (35.4 - 12.1) := by
    norm_num [calculate_sub_aqi, pm25_bp, subAqiLoop, interp]
  refine ⟨h, ?_⟩
  rw [h, abs_sub_lt_iff]
  constructor <;> norm_num

/-- The loop's value never exceeds 500 on a table whose bands are
well-formed with upper indices at most 500. -/
lemma subAqiLoop_le_500 (C L : ℚ) (bps : List Band)
    (h : ∀ b ∈ bps, b.low_c < b.high_c ∧ b.low_i ≤ b.high_i ∧ b.high_i ≤ 500) :
    subAqiLoop C L bps ≤ 500 := by
  induction bps with
  | nil =>
      rw [subAqiLoop]
      split <;> norm_num
  | cons b rest ih =>
      rw [subAqiLoop]
      split
      · rename_i hc
        obtain ⟨h1, h2, h3⟩ := h b (List.mem_cons_self b rest)
        exact le_trans (interp_le_high C b h1 h2 hc.2) h3
      · exact ih fun x hx => h x (List.mem_cons_of_mem b hx)

/-- `calculate_sub_aqi` never exceeds 500 on a well-formed table. -/
lemma calculate_sub_aqi_le_500 (C : ℚ) (bps : List Band)
    (h : ∀ b ∈ bps, b.low_c < b.high_c ∧ b.low_i ≤ b.high_i ∧ b.high_i ≤ 500) :
    calculate_sub_aqi C bps ≤ 500 :=
  subAqiLoop_le_500 C _ bps h

/-- C2: when no band of a (non-empty) table matches `C`, the result is 500
if `C` is strictly above the last band's upper bound and 0 otherwise; in
particular each pollutant's sub-index is exactly 500 strictly above the top
of its highest band. -/
theorem claim_C2 :
    (∀ (C : ℚ) (bps : List Band), bps ≠ [] →
      (∀ b ∈ bps, ¬(b.low_c ≤ C ∧ C ≤ b.high_c)) →
      calculate_sub_aqi C bps =
        if C > (bps.getLastD ⟨0, 0, 0, 0⟩).high_c then 500 else 0) ∧
    (∀ C : ℚ, 500.4 < C → calculate_sub_aqi C pm25_bp = 500) ∧
    (∀ C : ℚ, 604 < C → calculate_sub_aqi C pm10_bp = 500) ∧
    (∀ C : ℚ, 50.4 < C → calculate_sub_aqi C co_bp = 500) ∧
    (∀ C : ℚ, 604 < C → calculate_sub_aqi C o3_bp = 500) ∧
    (∀ C : ℚ, 2049 < C → calculate_sub_aqi C no2_bp = 500) := by
  refine ⟨?_, aboveTop_pm25, aboveTop_pm10, aboveTop_co, aboveTop_o3, aboveTop_no2⟩
  intro C bps _ h
  rw [calculate_sub_aqi, subAqiLoop_no_match C _ bps h]

/-- Witness for C2: 12.05 matches no PM2.5 band and is below the top, so
the result is 0; 600 is above the top, so the result is 500. -/
theorem claim_C2_witness :
    calculate_sub_aqi (12.05 : ℚ) pm25_bp = 0 ∧ calculate_sub_aqi 600 pm25_bp = 500 := by
  constructor
  · have hno : ∀ b ∈ pm25_bp, ¬(b.low_c ≤ (12.05 : ℚ) ∧ (12.05 : ℚ) ≤ b.high_c) := by
      intro b hb; fin_cases hb <;> norm_num
    have h := claim_C2.1 12.05 pm25_bp (by simp [pm25_bp]) hno
    rw [h, if_neg]
    rw [show (pm25_bp.getLastD ⟨0, 0, 0, 0⟩).high_c = (500.4 : ℚ) from rfl]
    norm_num
  · exact claim_C2.2.1 600 (by norm_num)

/-- Counterexample to C8: the claim that some concentration strictly above
the top of a pollutant's highest band yields a sub-index strictly greater
than 500 is false — for all five tables the fallback returns exactly 500. -/
theorem claim_C8_counterexample :
    ¬ ∃ bps ∈ [pm25_bp, pm10_bp, co_bp, o3_bp, no2_bp], ∃ C : ℚ,
        (bps.getLastD ⟨0, 0, 0, 0⟩).high_c < C ∧ 500 < calculate_sub_aqi C bps := by
  rintro ⟨bps, hmem, C, htop, hgt⟩
  simp only [List.mem_cons, List.mem_singleton, List.not_mem_nil, or_false] at hmem
  rcases hmem with rfl | rfl | rfl | rfl | rfl
  · rw [aboveTop_pm25 C htop] at hgt; exact lt_irrefl _ hgt
  · rw [aboveTop_pm10 C htop] at hgt; exact lt_irrefl _ hgt
  · rw [aboveTop_co C htop] at hgt; exact lt_irrefl _ hgt
  · rw [aboveTop_o3 C htop] at hgt; exact lt_irrefl _ hgt
  · rw [aboveTop_no2 C htop] at hgt; exact lt_irrefl _ hgt

/-- C8 (amended): the computed sub-index never exceeds 500 on any of the
five pollutant tables, and strictly above the top of the highest band the
code returns the sentinel 500 exactly. -/
theorem claim_C8 (C : ℚ) (bps : List Band)
    (hmem : bps ∈ [pm25_bp, pm10_bp, co_bp, o3_bp, no2_bp]) :
    calculate_sub_aqi C bps ≤ 500 ∧
    ((bps.getLastD ⟨0, 0, 0, 0⟩).high_c < C → calculate_sub_aqi C bps = 500) := by
  simp only [List.mem_cons, List.mem_singleton, List.not_mem_nil, or_false] at hmem
  rcases hmem with rfl | rfl | rfl | rfl | rfl
  exacts [⟨calculate_sub_aqi_le_500 C pm25_bp pm25_bands_ok, aboveTop_pm25 C⟩,
    ⟨calculate_sub_aqi_le_500 C pm10_bp pm10_bands_ok, aboveTop_pm10 C⟩,
    ⟨calculate_sub_aqi_le_500 C co_bp co_bands_ok, aboveTop_co C⟩,
    ⟨calculate_sub_aqi_le_500 C o3_bp o3_bands_ok, aboveTop_o3 C⟩,
    ⟨calculate_sub_aqi_le_500 C no2_bp no2_bands_ok, aboveTop_no2 C⟩]

/-- Witness for C8 (amended): at PM2.5 = 600 (above the top band at 500.4)
the sub-index is exactly 500, and in particular at most 500. -/
theorem claim_C8_witness :
    calculate_sub_aqi 600 pm25_bp ≤ 500 ∧ calculate_sub_aqi 600 pm25_bp = 500 := by
  have h := claim_C8 600 pm25_bp (List.mem_cons_self _ _)
  refine ⟨h.1, h.2 ?_⟩
  rw [show (pm25_bp.getLastD ⟨0, 0, 0, 0⟩).high_c = (500.4 : ℚ) from rfl]
  norm_num

/-- C10: for every concentration strictly inside a gap between two
consecutive bands of any of the five pollutant tables no band matches and
the sub-index is 0; hence the function drops from 50 at PM2.5 = 12 to 0 at
PM2.5 = 12.05 (not monotone across band boundaries), yet it is
non-decreasing within each band of every table. -/
theorem claim_C10 :
    (∀ bps ∈ [pm25_bp, pm10_bp, co_bp, o3_bp, no2_bp], ∀ (k : ℕ) (hk : k + 1 < bps.length),
      ∀ C : ℚ, (bps.get ⟨k, Nat.lt_of_succ_lt hk⟩).high_c < C →
        C < (bps.get ⟨k + 1, hk⟩).low_c → calculate_sub_aqi C bps = 0) ∧
    calculate_sub_aqi 12 pm25_bp = 50 ∧
    calculate_sub_aqi (12.05 : ℚ) pm25_bp = 0 ∧
    (∀ bps ∈ [pm25_bp, pm10_bp, co_bp, o3_bp, no2_bp], ∀ b ∈ bps, ∀ C₁ C₂ : ℚ,
      b.low_c ≤ C₁ → C₁ ≤ C₂ → C₂ ≤ b.high_c →
      calculate_sub_aqi C₁ bps ≤ calculate_sub_aqi C₂ bps) := by
  have gapAll : ∀ bps ∈ [pm25_bp, pm10_bp, co_bp, o3_bp, no2_bp],
      ∀ (k : ℕ) (hk : k + 1 < bps.length), ∀ C : ℚ,
      (bps.get ⟨k, Nat.lt_of_succ_lt hk⟩).high_c < C →
      C < (bps.get ⟨k + 1, hk⟩).low_c → calculate_sub_aqi C bps = 0 := by
    intro bps hmem k hk C h1 h2
    obtain ⟨hs, hok⟩ := table_sorted_ok bps hmem
    exact gap_yields_zero bps hs (fun b hb => (hok b hb).1.le) k hk C h1 h2
  refine ⟨gapAll, ?_, ?_, ?_⟩
  · norm_num [calculate_sub_aqi, pm25_bp, subAqiLoop, interp]
  · refine gapAll pm25_bp (List.mem_cons_self _ _) 0 (by norm_num [pm25_bp]) 12.05 ?_ ?_
    · norm_num [pm25_bp]
    · norm_num [pm25_bp]
  · intro bps hmem b hb C₁ C₂ h1 h12 h2
    obtain ⟨hs, hok⟩ := table_sorted_ok bps hmem
    have e1 := calculate_sub_aqi_eval C₁ bps hs b hb h1 (h12.trans h2)
    have e2 := calculate_sub_aqi_eval C₂ bps hs b hb (h1.trans h12) h2
    rw [e1, e2]
    obtain ⟨hc, hi, _⟩ := hok b hb
    exact interp_mono C₁ C₂ b hc hi h12

/-- Witness for C10: the PM2.5 gap value 150.45 (between bands 3 and 4)
yields 0, and within PM10's third band the function is monotone from
C = 160 to C = 200. -/
theorem claim_C10_witness :
    calculate_sub_aqi (150.45 : ℚ) pm25_bp = 0 ∧
    calculate_sub_aqi 160 pm10_bp ≤ calculate_sub_aqi 200 pm10_bp := by
  constructor
  · exact claim_C10.1 pm25_bp (List.mem_cons_self _ _) 3 (by norm_num [pm25_bp]) 150.45
      (by norm_num [pm25_bp]) (by norm_num [pm25_bp])
  · exact claim_C10.2.2.2 pm10_bp (List.mem_cons_of_mem _ (List.mem_cons_self _ _))
      ⟨155, 254, 101, 150⟩
      (List.mem_cons_of_mem _ (List.mem_cons_of_mem _ (List.mem_cons_self _ _)))
      160 200 (by norm_num) (by norm_num) (by norm_num)

/-! ### Lemmas about `listMax` and first-match filtering -/

lemma le_foldl_max (l : List ℚ) (a : ℚ) : a ≤ l.foldl max a := by
  induction l generalizing a with
  | nil => exact le_refl a
  | cons b t ih => exact le_trans (le_max_left a b) (ih (max a b))

lemma mem_le_foldl_max (l : List ℚ) (x : ℚ) (hx : x ∈ l) : ∀ a : ℚ, x ≤ l.foldl max a := by
  induction l with
  | nil => cases hx
  | cons b t ih =>
      intro a
      rcases List.mem_cons.mp hx with rfl | hxt
      · exact le_trans (le_max_right a x) (le_foldl_max t (max a x))
      · exact ih hxt (max a b)

lemma foldl_max_mem (l : List ℚ) : ∀ a : ℚ, l.foldl max a = a ∨ l.foldl max a ∈ l := by
  induction l with
  | nil => exact fun a => Or.inl rfl
  | cons b t ih =>
      intro a
      rw [List.foldl_cons]
      rcases ih (max a b) with h | h
      · rcases max_cases a b with ⟨he, _⟩ | ⟨he, _⟩
        · exact Or.inl (by rw [h, he])
        · exact Or.inr (by rw [h, he]; exact List.mem_cons_self b t)
      · exact Or.inr (List.mem_cons_of_mem b h)

/-- Every element of a list is bounded by `listMax`. -/
lemma le_listMax (l : List ℚ) (x : ℚ) (hx : x ∈ l) : x ≤ listMax l := by
  cases l with
  | nil => cases hx
  | cons v rest =>
      rcases List.mem_cons.mp hx with rfl | hxt
      · exact le_foldl_max rest x
      · exact mem_le_foldl_max rest x hxt v

/-- `listMax` of a non-empty list is one of its elements. -/
lemma listMax_mem (l : List ℚ) (h : l ≠ []) : listMax l ∈ l := by
  cases l with
  | nil => exact absurd rfl h
  | cons v rest =>
      rcases foldl_max_mem rest v with h1 | h1
      · rw [listMax, h1]; exact List.mem_cons_self v rest
      · rw [listMax]; exact List.mem_cons_of_mem v h1

/-- The head of `(l.filter p).map f` (Python's comprehension-plus-`[0]`) is
`f` of the first element of `l` satisfying `p`. -/
lemma filter_map_headD_first {α β : Type} (p : α → Bool) (f : α → β) (l : List α) (d : β)
    (hne : ∃ x ∈ l, p x = true) :
    ∃ (i : ℕ) (hi : i < l.length), p (l.get ⟨i, hi⟩) = true ∧
      ((l.filter p).map f).headD d = f (l.get ⟨i, hi⟩) ∧
      ∀ j (hj : j < l.length), j < i → p (l.get ⟨j, hj⟩) = false := by
  induction l with
  | nil =>
      obtain ⟨x, hx, _⟩ := hne
      cases hx
  | cons a t ih =>
      by_cases hpa : p a = true
      · refine ⟨0, Nat.succ_pos _, hpa, ?_, fun j hj hlt => absurd hlt (Nat.not_lt_zero j)⟩
        rw [List.filter_cons, if_pos hpa]
        rfl
      · have hpa' : p a = false := Bool.eq_false_iff.mpr hpa
        have hne' : ∃ x ∈ t, p x = true := by
          obtain ⟨x, hx, hpx⟩ := hne
          rcases List.mem_cons.mp hx with rfl | hxt
          · exact absurd hpx hpa
          · exact ⟨x, hxt, hpx⟩
        obtain ⟨i, hi, h1, h2, h3⟩ := ih hne'
        refine ⟨i + 1, Nat.succ_lt_succ hi, h1, ?_, ?_⟩
        · rw [List.filter_cons, if_neg (by rw [hpa']; exact Bool.false_ne_true)]
          exact h2
        · intro j hj hlt
          cases j with
          | zero => exact hpa'
          | succ k => exact h3 k (Nat.lt_of_succ_lt_succ hj) (Nat.lt_of_succ_lt_succ hlt)

/-- Core behaviour of `get_aqi` on a non-empty reading set: the returned
index is the rounded maximum of the sub-indices, and the returned pollutant
is the first list entry achieving that maximum. -/
lemma get_aqi_core (pm25 pm10 co o3 no2 : Option ℚ) (h : aqiList pm25 pm10 co o3 no2 ≠ []) :
    ∃ m : ℚ, (∀ p ∈ aqiList pm25 pm10 co o3 no2, p.2 ≤ m) ∧
      m ∈ (aqiList pm25 pm10 co o3 no2).map Prod.snd ∧
      ∃ (i : ℕ) (hi : i < (aqiList pm25 pm10 co o3 no2).length),
        ((aqiList pm25 pm10 co o3 no2).get ⟨i, hi⟩).2 = m ∧
        (∀ j (hj : j < (aqiList pm25 pm10 co o3 no2).length), j < i →
          ((aqiList pm25 pm10 co o3 no2).get ⟨j, hj⟩).2 ≠ m) ∧
        get_aqi pm25 pm10 co o3 no2 =
          (pyRound m, ((aqiList pm25 pm10 co o3 no2).get ⟨i, hi⟩).1) := by
  have hmm : listMax ((aqiList pm25 pm10 co o3 no2).map Prod.snd) ∈
      (aqiList pm25 pm10 co o3 no2).map Prod.snd :=
    listMax_mem _ fun hmap => h (List.map_eq_nil_iff.mp hmap)
  obtain ⟨p0, hp0, hp0v⟩ := List.mem_map.mp hmm
  have hex : ∃ x ∈ aqiList pm25 pm10 co o3 no2,
      (fun p => decide (p.2 = listMax ((aqiList pm25 pm10 co o3 no2).map Prod.snd))) x = true :=
    ⟨p0, hp0, decide_eq_true hp0v⟩
  obtain ⟨i, hi, h1, h2, h3⟩ :=
    filter_map_headD_first _ Prod.fst (aqiList pm25 pm10 co o3 no2) "" hex
  refine ⟨listMax ((aqiList pm25 pm10 co o3 no2).map Prod.snd),
    fun p hp => le_listMax _ _ (List.mem_map_of_mem Prod.snd hp), hmm,
    i, hi, of_decide_eq_true h1, ?_, ?_⟩
  · intro j hj hlt heq
    exact of_decide_eq_false (h3 j hj hlt) heq
  · simp only [get_aqi]
    rw [if_neg h]
    exact congrArg _ h2

/-- C4: for a non-empty reading set, `get_aqi` returns the maximum of the
computed sub-indices (rounded) together with the first pollutant in
evaluation order PM2.5, PM10, CO, O₃, NO₂ whose sub-index equals that
maximum; with a single reading it returns that reading's sub-index
(rounded) and that pollutant as dominant. -/
theorem claim_C4 (pm25 pm10 co o3 no2 : Option ℚ) (h : aqiList pm25 pm10 co o3 no2 ≠ []) :
    (∃ m : ℚ, (∀ p ∈ aqiList pm25 pm10 co o3 no2, p.2 ≤ m) ∧
      m ∈ (aqiList pm25 pm10 co o3 no2).map Prod.snd ∧
      ∃ (i : ℕ) (hi : i < (aqiList pm25 pm10 co o3 no2).length),
        ((aqiList pm25 pm10 co o3 no2).get ⟨i, hi⟩).2 = m ∧
        (∀ j (hj : j < (aqiList pm25 pm10 co o3 no2).length), j < i →
          ((aqiList pm25 pm10 co o3 no2).get ⟨j, hj⟩).2 ≠ m) ∧
        get_aqi pm25 pm10 co o3 no2 =
          (pyRound m, ((aqiList pm25 pm10 co o3 no2).get ⟨i, hi⟩).1)) ∧
    (∀ c : ℚ, get_aqi (some c) none none none none =
      (pyRound (calculate_sub_aqi c pm25_bp), "PM2.5")) ∧
    (∀ c : ℚ, get_aqi none (some c) none none none =
      (pyRound (calculate_sub_aqi c pm10_bp), "PM10")) ∧
    (∀ c : ℚ, get_aqi none none (some c) none none =
      (pyRound (calculate_sub_aqi c co_bp), "CO")) ∧
    (∀ c : ℚ, get_aqi none none none (some c) none =
      (pyRound (calculate_sub_aqi c o3_bp), "O₃")) ∧
    (∀ c : ℚ, get_aqi none none none none (some c) =
      (pyRound (calculate_sub_aqi c no2_bp), "NO₂")) := by
  refine ⟨get_aqi_core pm25 pm10 co o3 no2 h, ?_, ?_, ?_, ?_, ?_⟩ <;>
    (intro c; simp [get_aqi, aqiList, optEntry, listMax])

/-- Witness for C4: a single PM2.5 reading yields that sub-index (rounded)
with PM2.5 dominant. -/
theorem claim_C4_witness :
    get_aqi (some 3) none none none none = (pyRound (calculate_sub_aqi 3 pm25_bp), "PM2.5") :=
  (claim_C4 (some 3) none none none none (by simp [aqiList, optEntry])).2.1 3

/-- C9: for a non-empty reading set the overall index is the unrounded
maximum sub-index passed once through rounding, while the maximum and the
dominant-pollutant tie-break are taken on the unrounded values (every
entry before the dominant one is strictly below the maximum). -/
theorem claim_C9 (pm25 pm10 co o3 no2 : Option ℚ) (h : aqiList pm25 pm10 co o3 no2 ≠ []) :
    ∃ m : ℚ, (∀ p ∈ aqiList pm25 pm10 co o3 no2, p.2 ≤ m) ∧
      m ∈ (aqiList pm25 pm10 co o3 no2).map Prod.snd ∧
      (get_aqi pm25 pm10 co o3 no2).1 = pyRound m ∧
      ∃ (i : ℕ) (hi : i < (aqiList pm25 pm10 co o3 no2).length),
        ((aqiList pm25 pm10 co o3 no2).get ⟨i, hi⟩).2 = m ∧
        (get_aqi pm25 pm10 co o3 no2).2 = ((aqiList pm25 pm10 co o3 no2).get ⟨i, hi⟩).1 ∧
        ∀ j (hj : j < (aqiList pm25 pm10 co o3 no2).length), j < i →
          ((aqiList pm25 pm10 co o3 no2).get ⟨j, hj⟩).2 < m := by
  obtain ⟨m, hmax, hmem, i, hi, hieq, hfirst, heq⟩ := get_aqi_core pm25 pm10 co o3 no2 h
  refine ⟨m, hmax, hmem, by rw [heq], i, hi, hieq, by rw [heq], ?_⟩
  intro j hj hlt
  exact lt_of_le_of_ne
    (hmax _ (List.get_mem (aqiList pm25 pm10 co o3 no2) j hj))
    (hfirst j hj hlt)

/-- Witness for C9 at the single concrete reading PM2.5 = 25. -/
theorem claim_C9_witness :
    ∃ m : ℚ, (∀ p ∈ aqiList (some 25) none none none none, p.2 ≤ m) ∧
      m ∈ (aqiList (some 25) none none none none).map Prod.snd ∧
      (get_aqi (some 25) none none none none).1 = pyRound m ∧
      ∃ (i : ℕ) (hi : i < (aqiList (some 25) none none none none).length),
        ((aqiList (some 25) none none none none).get ⟨i, hi⟩).2 = m ∧
        (get_aqi (some 25) none none none none).2 =
          ((aqiList (some 25) none none none none).get ⟨i, hi⟩).1 ∧
        ∀ j (hj : j < (aqiList (some 25) none none none none).length), j < i →
          ((aqiList (some 25) none none none none).get ⟨j, hj⟩).2 < m :=
  claim_C9 (some 25) none none none none (by simp [aqiList, optEntry])

end RealAQI
